import Mathlib

/-!
Verification of the orchestration core of mypy_primer (src/mypy_primer/main.py):
project selection and cost-balanced sharding, the bisection aggregate verdict,
the bisection narrowing loop, and the primer exit-code computation.

Functions of main.py are embedded under their source names
(select_projects, are_results_good, ...).  Collaborators that live outside
src/ (the Project and MypyResult dataclasses of model.py, strip_colour_code
of utils.py, the git bisect primitive) are modelled from the spec and say so
in their doc comments.
-/

namespace MypyPrimer

/-- Modelled from the spec: a WorkUnit (the Project dataclass of model.py,
outside src/): identity (name, location), pinned revision-or-date selector,
an expected-success flag and a non-negative cost used only for partitioning. -/
structure Project where
  name : String
  location : String
  revision : Option String
  expected_success : Bool
  cost : Nat
deriving DecidableEq

/-- Modelled from the spec: a CheckResult (the MypyResult dataclass of
model.py, outside src/): success flag, raw textual output, wall-clock runtime. -/
structure MypyResult where
  success : Bool
  output : String
  runtime : Nat
deriving DecidableEq

/-- Truthiness of an optional string CLI argument, as Python evaluates
an `if ARGS.x:` test: false for None and for the empty string. -/
def strTruthy : Option String → Bool
  | none => false
  | some s => !(s == "")

/-- Truthiness of an optional integer CLI argument: false for None and 0. -/
def natTruthy : Option Nat → Bool
  | none => false
  | some n => !(n == 0)

/-- State machine for stripping ANSI styling: the flag says whether we are
inside an escape sequence (started by ESC, ended by the next letter m). -/
def stripAnsiGo : Bool → List Char → List Char
  | _, [] => []
  | true, c :: rest => if c = 'm' then stripAnsiGo false rest else stripAnsiGo true rest
  | false, c :: rest =>
    if c = '\x1b' then stripAnsiGo true rest else c :: stripAnsiGo false rest

/-- Modelled from the spec: strip ANSI styling from checker output
(utils.strip_colour_code, outside src/). -/
def strip_colour_code (s : String) : String := ⟨stripAnsiGo false s.data⟩

/-- Code-point comparison of character lists: exactly how Python compares
strings, used to embed the sort tie-break of select_projects. -/
def charListLe : List Char → List Char → Bool
  | [], _ => true
  | _ :: _, [] => false
  | a :: as, b :: bs =>
    if a.toNat < b.toNat then true
    else if b.toNat < a.toNat then false
    else charListLe as bs

/-- Python string comparison by code points. -/
def strLe (a b : String) : Bool := charListLe a.data b.data

/-- Sort order used by select_projects: sorted with key (cost, location) and
reverse=True, so p may precede q iff the key of p is lexicographically at
least the key of q. -/
def projectBefore (p q : Project) : Bool :=
  decide (q.cost < p.cost) || (q.cost == p.cost && strLe q.location p.location)

/-- Stable insertion step for the descending sort. -/
def orderedInsertDesc (p : Project) : List Project → List Project
  | [] => [p]
  | q :: qs => if projectBefore p q then p :: q :: qs else q :: orderedInsertDesc p qs

/-- The stable descending sort sorted(projects, key=(cost, location),
reverse=True) of select_projects. -/
def sortProjects : List Project → List Project
  | [] => []
  | p :: ps => orderedInsertDesc p (sortProjects ps)

/-- Index of the shard with the currently lowest accumulated cost:
min(range(num_shards), key=shard_costs.get), first index on ties. -/
def minCostShard (shard_costs : List Nat) : Nat :=
  (List.range shard_costs.length).foldl
    (fun best i => if shard_costs.getD i 0 < shard_costs.getD best 0 then i else best) 0

/-- One iteration of the sharding loop of select_projects: put project p on
the shard with the lowest accumulated cost and charge its cost there. -/
def shardStep (acc : List Nat × List (List Project)) (p : Project) :
    List Nat × List (List Project) :=
  let min_shard := minCostShard acc.1
  (acc.1.set min_shard (acc.1.getD min_shard 0 + p.cost),
   acc.2.set min_shard (acc.2.getD min_shard [] ++ [p]))

/-- The sharding loop of select_projects: LPT greedy bin packing over the
projects sorted by (cost, location) descending. -/
def shardProjects (num_shards : Nat) (projects : List Project) :
    List (List Project) :=
  ((sortProjects projects).foldl shardStep
    (List.replicate num_shards 0, List.replicate num_shards [])).2

/-- The fields of the global CLI context that main.py reads: each embedded
theorem quantifies over them explicitly instead of using ambient state. -/
structure Args where
  local_project : Option String
  project_selector : Option String
  expected_success : Bool
  project_date : Option String
  num_shards : Option Nat
  shard_index : Option Nat
  bisect_output : Option String
  old_success : Bool
  new_typeshed : Option String
  old_typeshed : Option String
deriving DecidableEq

/-- Modelled from the spec: Project.from_location of model.py (outside src/)
builds the single WorkUnit describing a local project at the given location. -/
def Project.from_location (location : String) : Project :=
  ⟨location, location, none, true, 1⟩

/-- The filter pipeline of select_projects before the empty check: the
project-selector regex filter (the regex engine abstracted as the function
argument search), the expected-success filter, and the date override that
replaces each revision.  The corpus get_projects() (projects.py, outside
src/) is the explicit argument corpus. -/
def filtered_projects (ARGS : Args) (search : String → String → Bool)
    (corpus : List Project) : List Project :=
  let projects1 :=
    if strTruthy ARGS.project_selector then
      corpus.filter (fun p => search (ARGS.project_selector.getD "") p.location)
    else corpus
  let projects2 :=
    if ARGS.expected_success then projects1.filter (fun p => p.expected_success)
    else projects1
  if strTruthy ARGS.project_date then
    projects2.map (fun p => ⟨p.name, p.location, ARGS.project_date, p.expected_success, p.cost⟩)
  else projects2

/-- select_projects of main.py: a supplied local project short-circuits
everything; otherwise filter, fail on an empty selection, and shard when
num_shards is set (the assert on shard_index and the list indexing are made
explicit as error values). -/
def select_projects (ARGS : Args) (search : String → String → Bool)
    (corpus : List Project) : Except String (List Project) :=
  if strTruthy ARGS.local_project then
    .ok [Project.from_location (ARGS.local_project.getD "")]
  else if filtered_projects ARGS search corpus = [] then
    .error "No projects selected!"
  else if natTruthy ARGS.num_shards then
    match ARGS.shard_index with
    | none => .error "AssertionError"
    | some shard_index =>
      match (shardProjects (ARGS.num_shards.getD 0)
          (filtered_projects ARGS search corpus)).get? shard_index with
      | some shard => .ok shard
      | none => .error "IndexError"
  else .ok (filtered_projects ARGS search corpus)

/-- are_results_good of bisect in main.py.  Result dictionaries keyed by
project name are embedded as functions from names to results; the regular
expression search re.search(pattern, text) is abstracted as the function
argument search.  With a truthy bisect_output the verdict is good iff no
project's colour-stripped output matches the pattern; otherwise it is good
iff every project's raw output equals the recorded baseline old_results. -/
def are_results_good (ARGS : Args) (search : String → String → Bool)
    (projects : List Project) (old_results : String → MypyResult)
    (results : String → MypyResult) : Bool :=
  if strTruthy ARGS.bisect_output then
    ! projects.any fun project =>
        search (ARGS.bisect_output.getD "")
          (strip_colour_code (results project.name).output)
  else
    projects.all fun project =>
      (results project.name).output == (old_results project.name).output

/-- Modelled from the spec: the state of the external git bisect primitive,
internalised as indices into the ordered revision history — a known-good
boundary (exclusive) and a known-bad boundary (inclusive). -/
structure BisectionState where
  good : Nat
  bad : Nat
deriving DecidableEq

/-- Number of candidate revisions still in play: bad - good. -/
def intervalSize (st : BisectionState) : Nat := st.bad - st.good

/-- Modelled from the spec: the candidate revision git bisect checks out,
the midpoint of the current interval. -/
def bisectCandidate (st : BisectionState) : Nat := (st.good + st.bad) / 2

/-- Modelled from the spec: reporting a verdict to git bisect advances one
boundary to the tested candidate. -/
def bisectReportStep (st : BisectionState) (verdictGood : Bool) : BisectionState :=
  if verdictGood then ⟨bisectCandidate st, st.bad⟩ else ⟨st.good, bisectCandidate st⟩

/-- Modelled from the spec: the step report of git bisect carries the
distinguished first-bad-commit signal exactly when the interval has
collapsed to a single candidate revision. -/
def firstBadCommitSignal (st : BisectionState) : Bool := st.bad - st.good == 1

/-- The stepping loop of bisect in main.py over the modelled git bisect
primitive: while the report lacks the first-bad-commit signal, run the
corpus at the current candidate, report the aggregate verdict, and loop.
Returns the number of completed steps and the final state. -/
def bisectLoop (verdict : Nat → Bool) (st : BisectionState) : Nat × BisectionState :=
  if h : firstBadCommitSignal st = true ∨ st.bad ≤ st.good then (0, st)
  else
    let st1 := bisectReportStep st (verdict (bisectCandidate st))
    let r := bisectLoop verdict st1
    (r.1 + 1, r.2)
termination_by intervalSize st
decreasing_by
  simp only [firstBadCommitSignal, beq_iff_eq, not_or, not_le] at h
  simp only [bisectReportStep, bisectCandidate, intervalSize]
  split <;> dsimp only <;> omega

/-- The entry of bisect in main.py: the typeshed asserts, then the assert
that the aggregate verdict on the recorded old (good) results is good;
only past that assertion is the stepping loop entered. -/
def bisect_main (ARGS : Args) (search : String → String → Bool)
    (projects : List Project) (old_results : String → MypyResult)
    (verdict : Nat → Bool) (st : BisectionState) :
    Except String (Nat × BisectionState) :=
  if strTruthy ARGS.new_typeshed then .error "AssertionError"
  else if strTruthy ARGS.old_typeshed then .error "AssertionError"
  else if are_results_good ARGS search projects old_results old_results then
    .ok (bisectLoop verdict st)
  else .error "AssertionError"

/-- The per-project data the retcode loop of primer in main.py consumes:
whether the old checker succeeded on the project and whether the
differential result has a diff. -/
structure PrimerProjectResult where
  old_success : Bool
  diff : Bool
deriving DecidableEq

/-- The retcode accumulation of primer in main.py: results whose old run
failed are skipped when the old-success flag is set; otherwise the first
result with a diff sets the retcode to 1. -/
def primer_retcode (old_success_flag : Bool) (results : List PrimerProjectResult) : Nat :=
  results.foldl
    (fun retcode result =>
      if old_success_flag && !result.old_success then retcode
      else if retcode == 0 && result.diff then 1 else retcode) 0

/-- How the orchestrator run ends: inner() completed with an optional
retcode (None for the diagnostic modes), or an exception escaped to the
boundary handler of main(). -/
inductive ProgramOutcome where
  | completed (retcode : Option Nat)
  | escaped
deriving DecidableEq

/-- The boundary handler of main() in main.py: returns the process exit
code and how many times the traceback is printed.  A completed run exits
with its retcode (0 for None, as sys.exit(None) does); an escaped
exception prints the traceback once and exits 70. -/
def main_retcode : ProgramOutcome → Nat × Nat
  | .completed none => (0, 0)
  | .completed (some r) => (r, 0)
  | .escaped => (70, 1)

/-- The selection barrier of the primer pipeline: per-project checker work
(the abstract check argument) runs only on a successful selection, so a
selection error yields an empty set of executed checks. -/
def primer_checks_run (ARGS : Args) (search : String → String → Bool)
    (corpus : List Project) (check : Project → PrimerProjectResult) :
    List PrimerProjectResult :=
  match select_projects ARGS search corpus with
  | .error _ => []
  | .ok projects => projects.map check

/-! Helper lemmas about the sort of select_projects. -/

theorem charListLe_total (a b : List Char) :
    charListLe a b = true ∨ charListLe b a = true := by
  induction a generalizing b with
  | nil => left; rfl
  | cons x xs ih =>
    cases b with
    | nil => right; rfl
    | cons y ys =>
      by_cases h1 : x.toNat < y.toNat
      · left; simp [charListLe, h1]
      · by_cases h2 : y.toNat < x.toNat
        · right; simp [charListLe, h2]
        · rcases ih ys with h | h
          · left; simp [charListLe, h1, h2, h]
          · right; simp [charListLe, h1, h2, h]

theorem projectBefore_total (p q : Project) :
    projectBefore p q = true ∨ projectBefore q p = true := by
  unfold projectBefore
  rcases Nat.lt_trichotomy p.cost q.cost with h | h | h
  · right; simp [h]
  · rcases charListLe_total q.location.data p.location.data with hc | hc
    · left; simp [strLe, h, hc]
    · right; simp [strLe, h, hc]
  · left; simp [h]

theorem cost_le_of_projectBefore {p q : Project} (h : projectBefore p q = true) :
    q.cost ≤ p.cost := by
  unfold projectBefore at h
  simp only [Bool.or_eq_true, decide_eq_true_eq, Bool.and_eq_true, beq_iff_eq] at h
  rcases h with h | ⟨h, _⟩ <;> omega

theorem orderedInsertDesc_perm (p : Project) (l : List Project) :
    (orderedInsertDesc p l).Perm (p :: l) := by
  induction l with
  | nil => simp [orderedInsertDesc]
  | cons q qs ih =>
    unfold orderedInsertDesc
    split
    · exact List.Perm.refl _
    · exact (ih.cons q).trans (List.Perm.swap p q qs)

theorem sortProjects_perm (l : List Project) : (sortProjects l).Perm l := by
  induction l with
  | nil => exact List.Perm.refl _
  | cons p ps ih =>
    exact (orderedInsertDesc_perm p (sortProjects ps)).trans (ih.cons p)

theorem mem_orderedInsertDesc {b p : Project} {l : List Project}
    (h : b ∈ orderedInsertDesc p l) : b = p ∨ b ∈ l := by
  have := (orderedInsertDesc_perm p l).mem_iff.mp h
  simpa using this

theorem pairwise_cost_orderedInsertDesc (p : Project) (l : List Project)
    (hl : l.Pairwise (fun a b => b.cost ≤ a.cost))
    (hhead : ∀ b ∈ l, projectBefore b p = true ∨ projectBefore p b = true) :
    (orderedInsertDesc p l).Pairwise (fun a b => b.cost ≤ a.cost) := by
  induction l with
  | nil => simp [orderedInsertDesc]
  | cons q qs ih =>
    rcases List.pairwise_cons.mp hl with ⟨hq, hqs⟩
    unfold orderedInsertDesc
    split
    · rename_i hpq
      refine List.pairwise_cons.mpr ⟨?_, hl⟩
      intro b hb
      rcases List.mem_cons.mp hb with rfl | hb
      · exact cost_le_of_projectBefore hpq
      · exact le_trans (hq b hb) (cost_le_of_projectBefore hpq)
    · rename_i hpq
      refine List.pairwise_cons.mpr ⟨?_, ?_⟩
      · intro b hb
        rcases mem_orderedInsertDesc hb with rfl | hb
        · rcases hhead q (List.mem_cons_self q qs) with h | h
          · exact cost_le_of_projectBefore h
          · exact absurd h hpq
        · exact hq b hb
      · exact ih hqs fun b hb => hhead b (List.mem_cons_of_mem q hb)

theorem sortProjects_pairwise_cost (l : List Project) :
    (sortProjects l).Pairwise (fun a b => b.cost ≤ a.cost) := by
  induction l with
  | nil => exact List.Pairwise.nil
  | cons p ps ih =>
    exact pairwise_cost_orderedInsertDesc p (sortProjects ps) ih
      fun b _ => projectBefore_total b p

/-! Helper lemmas about the sharding loop. -/

theorem shardStep_fst_length (acc : List Nat × List (List Project)) (p : Project) :
    (shardStep acc p).1.length = acc.1.length := by
  simp [shardStep]

theorem shardStep_snd_length (acc : List Nat × List (List Project)) (p : Project) :
    (shardStep acc p).2.length = acc.2.length := by
  simp [shardStep]

theorem foldl_shardStep_snd_length (ps : List Project)
    (acc : List Nat × List (List Project)) :
    ((ps.foldl shardStep acc).2).length = acc.2.length := by
  induction ps generalizing acc with
  | nil => rfl
  | cons p ps ih => rw [List.foldl_cons, ih, shardStep_snd_length]

theorem foldl_minIdx_lt (costs : List Nat) (l : List Nat) (best : Nat)
    (hb : best < costs.length) (hl : ∀ i ∈ l, i < costs.length) :
    l.foldl (fun best i => if costs.getD i 0 < costs.getD best 0 then i else best)
      best < costs.length := by
  induction l generalizing best with
  | nil => exact hb
  | cons a as ih =>
    rw [List.foldl_cons]
    apply ih
    · split
      · exact hl a (List.mem_cons_self a as)
      · exact hb
    · intro i hi
      exact hl i (List.mem_cons_of_mem a hi)

theorem minCostShard_lt (costs : List Nat) (h : costs ≠ []) :
    minCostShard costs < costs.length := by
  apply foldl_minIdx_lt
  · exact List.length_pos.mpr h
  · intro i hi
    exact List.mem_range.mp hi

theorem flatten_set_snoc_perm (l : List (List Project)) (i : Nat)
    (hi : i < l.length) (p : Project) :
    ((l.set i (l.getD i [] ++ [p])).flatten).Perm (l.flatten ++ [p]) := by
  have hset : l.set i (l.getD i [] ++ [p]) =
      l.take i ++ (l.getD i [] ++ [p]) :: l.drop (i + 1) :=
    List.set_eq_take_cons_drop _ hi
  have hsplit : l = l.take i ++ l.getD i [] :: l.drop (i + 1) := by
    conv_lhs => rw [← List.take_append_drop i l]
    rw [List.drop_eq_getElem_cons hi, List.getD_eq_getElem l [] hi]
  rw [hset]
  conv_rhs => rw [hsplit]
  simp only [List.flatten_append, List.flatten_cons, List.append_assoc]
  apply List.Perm.append_left
  apply List.Perm.append_left
  exact List.perm_append_comm

theorem foldl_shardStep_flatten_perm (ps : List Project)
    (acc : List Nat × List (List Project))
    (hlen : acc.1.length = acc.2.length) (hpos : acc.2 ≠ []) :
    ((ps.foldl shardStep acc).2.flatten).Perm (acc.2.flatten ++ ps) := by
  induction ps generalizing acc with
  | nil => simp
  | cons p ps ih =>
    rw [List.foldl_cons]
    have h1 : acc.1 ≠ [] := by
      intro hc
      apply hpos
      have : acc.2.length = 0 := by rw [← hlen, hc]; rfl
      exact List.length_eq_zero.mp this
    have hi : minCostShard acc.1 < acc.2.length := by
      rw [← hlen]; exact minCostShard_lt acc.1 h1
    have hstep : ((shardStep acc p).2.flatten).Perm (acc.2.flatten ++ [p]) := by
      simpa [shardStep] using
        flatten_set_snoc_perm acc.2 (minCostShard acc.1) hi p
    have hrec := ih (shardStep acc p)
      (by rw [shardStep_fst_length, shardStep_snd_length]; exact hlen)
      (by
        intro hc
        apply hpos
        have : acc.2.length = 0 := by rw [← shardStep_snd_length acc p, hc]; rfl
        exact List.length_eq_zero.mp this)
    have heq : (acc.2.flatten ++ [p]) ++ ps = acc.2.flatten ++ p :: ps := by simp
    exact hrec.trans (by rw [← heq]; exact hstep.append_right ps)

theorem flatten_replicate_nil (n : Nat) :
    (List.replicate n ([] : List Project)).flatten = [] := by
  induction n with
  | zero => rfl
  | succ k ih => simp [List.replicate_succ, ih]

theorem shardProjects_length (n : Nat) (ps : List Project) :
    (shardProjects n ps).length = n := by
  unfold shardProjects
  rw [foldl_shardStep_snd_length]
  exact List.length_replicate n []

theorem shardProjects_flatten_perm (n : Nat) (ps : List Project) (h : 1 ≤ n) :
    ((shardProjects n ps).flatten).Perm ps := by
  unfold shardProjects
  have hrep : (List.replicate n ([] : List Project)) ≠ [] := by
    intro hc
    have := congrArg List.length hc
    simp at this
    omega
  have hmain := foldl_shardStep_flatten_perm (sortProjects ps)
    (List.replicate n 0, List.replicate n []) (by simp) hrep
  rw [flatten_replicate_nil] at hmain
  simp only [List.nil_append] at hmain
  exact hmain.trans (sortProjects_perm ps)

theorem foldl_shardStep_single (ps : List Project) (c : Nat) (l : List Project) :
    ps.foldl shardStep ([c], [l]) = ([c + (ps.map Project.cost).sum], [l ++ ps]) := by
  induction ps generalizing c l with
  | nil => simp
  | cons p ps ih =>
    rw [List.foldl_cons]
    have hmin : minCostShard [c] = 0 := by
      simp [minCostShard, List.range_succ]
    have hstep : shardStep ([c], [l]) p = ([c + p.cost], [l ++ [p]]) := by
      simp [shardStep, hmin]
    rw [hstep, ih]
    simp [Nat.add_assoc]

/-! Helper lemmas about the bisection loop. -/

theorem bisectReportStep_bounds (st : BisectionState) (v : Bool)
    (h : 2 ≤ intervalSize st) :
    (bisectReportStep st v).good < (bisectReportStep st v).bad ∧
      intervalSize (bisectReportStep st v) ≤ (intervalSize st + 1) / 2 ∧
      intervalSize (bisectReportStep st v) < intervalSize st := by
  simp only [bisectReportStep, bisectCandidate, intervalSize] at *
  split <;> dsimp only <;> omega

theorem bisectLoop_measure (verdict : Nat → Bool) (n : Nat) :
    ∀ st : BisectionState, st.good < st.bad → intervalSize st = n →
      (bisectLoop verdict st).1 ≤ Nat.clog 2 n ∧
      firstBadCommitSignal (bisectLoop verdict st).2 = true := by
  induction n using Nat.strong_induction_on with
  | _ n ih =>
    intro st hgb hsz
    by_cases hsig : firstBadCommitSignal st = true
    · rw [bisectLoop, dif_pos (Or.inl hsig)]
      exact ⟨Nat.zero_le _, hsig⟩
    · have h2 : 2 ≤ intervalSize st := by
        simp only [firstBadCommitSignal, beq_iff_eq] at hsig
        simp only [intervalSize] at *
        omega
      have hcond : ¬(firstBadCommitSignal st = true ∨ st.bad ≤ st.good) := by
        push_neg
        exact ⟨hsig, hgb⟩
      rw [bisectLoop, dif_neg hcond]
      dsimp only
      have hb := bisectReportStep_bounds st (verdict (bisectCandidate st)) h2
      have hrec := ih (intervalSize (bisectReportStep st (verdict (bisectCandidate st))))
        (by omega) _ hb.1 rfl
      refine ⟨?_, hrec.2⟩
      have hclog : Nat.clog 2 ((n + 1) / 2) + 1 ≤ Nat.clog 2 n := by
        have hrw := @Nat.clog_of_two_le 2 n (by norm_num) (by omega)
        have harg : (n + 2 - 1) / 2 = (n + 1) / 2 := by omega
        rw [harg] at hrw
        omega
      have hmono : Nat.clog 2 (intervalSize (bisectReportStep st (verdict (bisectCandidate st)))) ≤
          Nat.clog 2 ((n + 1) / 2) :=
        Nat.clog_mono_right 2 (by omega)
      omega

/-! Helper lemmas about the primer retcode loop. -/

theorem primer_retcode_foldl_one (flag : Bool) (results : List PrimerProjectResult) :
    results.foldl
      (fun retcode result =>
        if flag && !result.old_success then retcode
        else if retcode == 0 && result.diff then 1 else retcode) 1 = 1 := by
  induction results with
  | nil => rfl
  | cons r rs ih =>
    rw [List.foldl_cons]
    have hone : (if flag && !r.old_success then 1
        else if (1 : Nat) == 0 && r.diff then 1 else 1) = 1 := by
      split <;> simp
    rw [hone]
    exact ih

theorem primer_retcode_spec (flag : Bool) (results : List PrimerProjectResult) :
    primer_retcode flag results =
      if results.any (fun r => (!flag || r.old_success) && r.diff) then 1 else 0 := by
  unfold primer_retcode
  induction results with
  | nil => rfl
  | cons r rs ih =>
    rw [List.foldl_cons, List.any_cons]
    by_cases hskip : (flag && !r.old_success) = true
    · have hflag : flag = true := by cases flag <;> simp_all
      have ho : r.old_success = false := by cases h : r.old_success <;> simp_all
      rw [if_pos hskip, ih, hflag, ho]
      simp
    · rw [if_neg hskip]
      by_cases hd : r.diff = true
      · rw [if_pos (by simp [hd]), primer_retcode_foldl_one]
        have hh : (!flag || r.old_success) = true := by
          cases flag <;> cases h : r.old_success <;> simp_all
        simp [hh, hd]
      · rw [if_neg (by simp [hd]), ih]
        have hd' : r.diff = false := by cases h : r.diff <;> simp_all
        simp [hd']

/-! Helper lemma: list membership search is invariant under permutation. -/

theorem perm_any_eq {α : Type} {l₁ l₂ : List α} (h : l₁.Perm l₂) (f : α → Bool) :
    l₁.any f = l₂.any f := by
  rw [Bool.eq_iff_iff, List.any_eq_true, List.any_eq_true]
  constructor
  · rintro ⟨x, hx, hfx⟩
    exact ⟨x, h.mem_iff.mp hx, hfx⟩
  · rintro ⟨x, hx, hfx⟩
    exact ⟨x, h.mem_iff.mpr hx, hfx⟩

/-- C1: the aggregate verdict computed by are_results_good for a bisection
step is good iff, under the equivalence policy, every project's output
equals the recorded baseline output for that project, and, under the
pattern policy, iff no project's stripped output matches the configured
pattern; hence a single non-equivalent or matched project makes the
aggregate verdict bad. -/
theorem are_results_good_aggregate_verdict (ARGS : Args)
    (search : String → String → Bool) (projects : List Project)
    (old_results results : String → MypyResult) :
    (strTruthy ARGS.bisect_output = false →
      (are_results_good ARGS search projects old_results results = true ↔
        ∀ p ∈ projects, (results p.name).output = (old_results p.name).output))
    ∧ (strTruthy ARGS.bisect_output = true →
      (are_results_good ARGS search projects old_results results = true ↔
        ∀ p ∈ projects,
          search (ARGS.bisect_output.getD "")
            (strip_colour_code (results p.name).output) = false)) := by
  constructor
  · intro h
    simp [are_results_good, h, List.all_eq_true]
  · intro h
    simp [are_results_good, h, List.any_eq_false]

/-- Witness for C1 at a concrete one-project corpus under the equivalence
policy with identical outputs. -/
theorem are_results_good_aggregate_verdict_witness :
    are_results_good ⟨none, none, false, none, none, none, none, false, none, none⟩
        (fun _ _ => false) [⟨"p", "p", none, true, 1⟩]
        (fun _ => ⟨true, "ok", 0⟩) (fun _ => ⟨true, "ok", 0⟩) = true ↔
      ∀ p ∈ [(⟨"p", "p", none, true, 1⟩ : Project)],
        ((fun _ => (⟨true, "ok", 0⟩ : MypyResult)) p.name).output =
          ((fun _ => (⟨true, "ok", 0⟩ : MypyResult)) p.name).output :=
  (are_results_good_aggregate_verdict _ _ _ _ _).1 (by decide)

/-- C2: for every project list and every shard count at least 1, the shards
of select_projects form a partition of the input — exactly the requested
number of shards, their concatenation a permutation of the input, every
project appearing with the same multiplicity across the shards as in the
input — and assignment consumes the projects in LPT order, sorted by cost
descending. -/
theorem shard_partition (projects : List Project) (n : Nat) (h : 1 ≤ n) :
    (shardProjects n projects).length = n
    ∧ ((shardProjects n projects).flatten).Perm projects
    ∧ (∀ p : Project,
        ((shardProjects n projects).map (List.count p)).sum = projects.count p)
    ∧ (sortProjects projects).Pairwise (fun a b => b.cost ≤ a.cost) := by
  refine ⟨shardProjects_length n projects,
    shardProjects_flatten_perm n projects h, ?_,
    sortProjects_pairwise_cost projects⟩
  intro p
  rw [← List.count_flatten]
  exact (shardProjects_flatten_perm n projects h).count_eq p

/-- Witness for C2 at a concrete two-project corpus split into two shards. -/
theorem shard_partition_witness :
    (shardProjects 2 [⟨"a", "a", none, true, 5⟩, ⟨"b", "b", none, true, 3⟩]).length = 2
    ∧ ((shardProjects 2
        [⟨"a", "a", none, true, 5⟩, ⟨"b", "b", none, true, 3⟩]).flatten).Perm
        [⟨"a", "a", none, true, 5⟩, ⟨"b", "b", none, true, 3⟩]
    ∧ (∀ p : Project,
        ((shardProjects 2
          [⟨"a", "a", none, true, 5⟩, ⟨"b", "b", none, true, 3⟩]).map
            (List.count p)).sum =
          ([⟨"a", "a", none, true, 5⟩, ⟨"b", "b", none, true, 3⟩] : List Project).count p)
    ∧ (sortProjects
        [⟨"a", "a", none, true, 5⟩, ⟨"b", "b", none, true, 3⟩]).Pairwise
        (fun a b => b.cost ≤ a.cost) :=
  shard_partition [⟨"a", "a", none, true, 5⟩, ⟨"b", "b", none, true, 3⟩] 2 (by decide)

/-- C3 counterexample: under the equivalence policy of are_results_good,
an output pair that is identical after ANSI stripping but differs raw is
classified non-equivalent, so pairwise equivalence is not decided up to
ANSI stripping on this code path. -/
theorem bisect_equivalence_ansi_counterexample :
    strip_colour_code "\x1b[31mok\x1b[0m" = strip_colour_code "ok"
    ∧ are_results_good ⟨none, none, false, none, none, none, none, false, none, none⟩
        (fun _ _ => false) [⟨"p", "p", none, true, 1⟩]
        (fun _ => ⟨true, "ok", 0⟩)
        (fun _ => ⟨true, "\x1b[31mok\x1b[0m", 0⟩) = false := by
  decide

/-- C3 amended: under the equivalence policy the new and old results for a
WorkUnit are classified equivalent iff their raw outputs are textually
identical; no ANSI stripping is applied on this path. -/
theorem bisect_equivalence_exact_output (ARGS : Args)
    (search : String → String → Bool) (p : Project)
    (old_results results : String → MypyResult)
    (h : strTruthy ARGS.bisect_output = false) :
    are_results_good ARGS search [p] old_results results = true ↔
      (results p.name).output = (old_results p.name).output := by
  simp [are_results_good, h]

/-- Witness for the amended C3 at a concrete project with equal outputs. -/
theorem bisect_equivalence_exact_output_witness :
    are_results_good ⟨none, none, false, none, none, none, none, false, none, none⟩
        (fun _ _ => false) [⟨"p", "p", none, true, 1⟩]
        (fun _ => ⟨true, "a", 0⟩) (fun _ => ⟨true, "a", 0⟩) = true ↔
      ((fun _ => (⟨true, "a", 0⟩ : MypyResult)) (⟨"p", "p", none, true, 1⟩ : Project).name).output =
        ((fun _ => (⟨true, "a", 0⟩ : MypyResult)) (⟨"p", "p", none, true, 1⟩ : Project).name).output :=
  bisect_equivalence_exact_output _ _ _ _ _ (by decide)

/-- C4: every completed step of the modelled bisection strictly shrinks the
candidate interval (whenever the first-bad-commit signal is still absent),
the stepping loop completes within ceiling-log2 of the interval size many
steps, and the loop exits exactly when the step report carries the
first-bad-commit signal. -/
theorem bisect_monotonic_narrowing (verdict : Nat → Bool) (st : BisectionState)
    (h : st.good < st.bad) :
    (firstBadCommitSignal st = false →
      intervalSize (bisectReportStep st (verdict (bisectCandidate st))) <
        intervalSize st)
    ∧ (bisectLoop verdict st).1 ≤ Nat.clog 2 (intervalSize st)
    ∧ firstBadCommitSignal (bisectLoop verdict st).2 = true := by
  refine ⟨?_, (bisectLoop_measure verdict (intervalSize st) st h rfl).1,
    (bisectLoop_measure verdict (intervalSize st) st h rfl).2⟩
  intro hsig
  have h2 : 2 ≤ intervalSize st := by
    simp only [firstBadCommitSignal, beq_eq_false_iff_ne, ne_eq] at hsig
    simp only [intervalSize] at *
    omega
  exact (bisectReportStep_bounds st (verdict (bisectCandidate st)) h2).2.2

/-- Witness for C4 on a four-revision interval whose first bad revision
is 3. -/
theorem bisect_monotonic_narrowing_witness :
    (firstBadCommitSignal (⟨0, 4⟩ : BisectionState) = false →
      intervalSize (bisectReportStep (⟨0, 4⟩ : BisectionState)
        ((fun n => decide (n < 3)) (bisectCandidate (⟨0, 4⟩ : BisectionState)))) <
        intervalSize (⟨0, 4⟩ : BisectionState))
    ∧ (bisectLoop (fun n => decide (n < 3)) (⟨0, 4⟩ : BisectionState)).1 ≤
        Nat.clog 2 (intervalSize (⟨0, 4⟩ : BisectionState))
    ∧ firstBadCommitSignal
        (bisectLoop (fun n => decide (n < 3)) (⟨0, 4⟩ : BisectionState)).2 = true :=
  bisect_monotonic_narrowing (fun n => decide (n < 3)) ⟨0, 4⟩ (by decide)

/-- C5 counterexample: with the old-success flag set, a result whose old
run failed but which has a diff is skipped by the retcode loop of primer,
so the process exits 0 even though some differential result has a diff. -/
theorem primer_exit_code_counterexample :
    (main_retcode (.completed (some (primer_retcode true [⟨false, true⟩])))).1 = 0
    ∧ [(⟨false, true⟩ : PrimerProjectResult)].any (fun r => r.diff) = true := by
  decide

/-- C5 amended: the exit code is 0 when no surviving result has a diff,
1 when at least one result that the old-success filter does not skip has a
diff, and 70 when an exception escapes to the boundary handler of main,
which then prints the traceback exactly once (and never otherwise). -/
theorem primer_exit_code_contract (flag : Bool)
    (results : List PrimerProjectResult) :
    (main_retcode (.completed (some (primer_retcode flag results)))).1 =
      (if results.any (fun r => (!flag || r.old_success) && r.diff) then 1 else 0)
    ∧ (main_retcode (.completed (some (primer_retcode flag results)))).2 = 0
    ∧ main_retcode .escaped = (70, 1) := by
  refine ⟨?_, rfl, rfl⟩
  rw [primer_retcode_spec]
  split <;> rfl

/-- C6: bisect asserts up front that the aggregate verdict computed on the
recorded old (good) boundary results agrees with good; whenever that
verdict is bad the run stops with an assertion error and the stepping loop
is never entered. -/
theorem bisect_initial_assertion (ARGS : Args) (search : String → String → Bool)
    (projects : List Project) (old_results : String → MypyResult)
    (verdict : Nat → Bool) (st : BisectionState)
    (h : are_results_good ARGS search projects old_results old_results = false) :
    bisect_main ARGS search projects old_results verdict st =
      Except.error "AssertionError" := by
  unfold bisect_main
  split
  · rfl
  · split
    · rfl
    · rw [if_neg (by simp [h])]

/-- Witness for C6: a pattern-policy run whose old boundary output already
matches the pattern is stopped by the assertion. -/
theorem bisect_initial_assertion_witness :
    bisect_main ⟨none, none, false, none, none, none, some "boom", false, none, none⟩
        (fun pat s => pat == s) [⟨"p", "p", none, true, 1⟩]
        (fun _ => ⟨false, "boom", 0⟩) (fun _ => true) ⟨0, 4⟩ =
      Except.error "AssertionError" :=
  bisect_initial_assertion _ _ _ _ _ _ (by decide)

/-- C7: under the pattern policy the aggregate verdict is bad iff at least
one project's stripped output matches the pattern, and the verdict is the
same for every reordering of the projects. -/
theorem pattern_verdict_symmetry (ARGS : Args) (pat : String)
    (search : String → String → Bool) (projects projects2 : List Project)
    (old_results results : String → MypyResult)
    (hpat : ARGS.bisect_output = some pat) (hne : pat ≠ "")
    (hperm : projects.Perm projects2) :
    (are_results_good ARGS search projects old_results results = false ↔
      ∃ p ∈ projects,
        search pat (strip_colour_code (results p.name).output) = true)
    ∧ are_results_good ARGS search projects old_results results =
        are_results_good ARGS search projects2 old_results results := by
  have ht : strTruthy ARGS.bisect_output = true := by
    simp [hpat, strTruthy, hne]
  constructor
  · simp [are_results_good, hpat, strTruthy, hne, List.any_eq_true]
  · simp only [are_results_good, ht, if_true]
    rw [perm_any_eq hperm]

/-- Witness for C7 on a two-project corpus and its reversal, with a
matching pattern. -/
theorem pattern_verdict_symmetry_witness :
    (are_results_good ⟨none, none, false, none, none, none, some "err", false, none, none⟩
        (fun pat s => pat == s)
        [⟨"p", "p", none, true, 1⟩, ⟨"q", "q", none, true, 1⟩]
        (fun _ => ⟨true, "err", 0⟩) (fun _ => ⟨true, "err", 0⟩) = false ↔
      ∃ p ∈ [(⟨"p", "p", none, true, 1⟩ : Project), ⟨"q", "q", none, true, 1⟩],
        (fun pat s => pat == s) "err"
          (strip_colour_code ((fun _ => (⟨true, "err", 0⟩ : MypyResult)) p.name).output) = true)
    ∧ are_results_good ⟨none, none, false, none, none, none, some "err", false, none, none⟩
        (fun pat s => pat == s)
        [⟨"p", "p", none, true, 1⟩, ⟨"q", "q", none, true, 1⟩]
        (fun _ => ⟨true, "err", 0⟩) (fun _ => ⟨true, "err", 0⟩) =
      are_results_good ⟨none, none, false, none, none, none, some "err", false, none, none⟩
        (fun pat s => pat == s)
        [⟨"q", "q", none, true, 1⟩, ⟨"p", "p", none, true, 1⟩]
        (fun _ => ⟨true, "err", 0⟩) (fun _ => ⟨true, "err", 0⟩) :=
  pattern_verdict_symmetry _ "err" _ _ _ _ _ rfl (by decide) (by decide)

/-- C8: with no local project supplied, select_projects fails with the
empty-selection error iff the filter pipeline selects no project, in which
case no per-project checker work is executed; a non-empty selection never
raises this error. -/
theorem selection_empty_aborts (ARGS : Args) (search : String → String → Bool)
    (corpus : List Project) (check : Project → PrimerProjectResult)
    (h : strTruthy ARGS.local_project = false) :
    (select_projects ARGS search corpus = Except.error "No projects selected!" ↔
      filtered_projects ARGS search corpus = [])
    ∧ (filtered_projects ARGS search corpus = [] →
        primer_checks_run ARGS search corpus check = []) := by
  have hok : filtered_projects ARGS search corpus = [] →
      select_projects ARGS search corpus = Except.error "No projects selected!" := by
    intro hemp
    unfold select_projects
    rw [if_neg (by simp [h]), if_pos hemp]
  refine ⟨⟨?_, hok⟩, fun hemp => ?_⟩
  · intro he
    by_contra hemp
    unfold select_projects at he
    rw [if_neg (by simp [h]), if_neg hemp] at he
    split at he
    · split at he
      · simp at he
      · split at he
        · simp at he
        · simp at he
    · simp at he
  · unfold primer_checks_run
    rw [hok hemp]

/-- Witness for C8: the expected-success filter empties a corpus whose only
project is not expected to succeed, and no check runs. -/
theorem selection_empty_aborts_witness :
    (select_projects ⟨none, none, true, none, none, none, none, false, none, none⟩
        (fun _ _ => true) [⟨"p", "p", none, false, 1⟩] =
        Except.error "No projects selected!" ↔
      filtered_projects ⟨none, none, true, none, none, none, none, false, none, none⟩
        (fun _ _ => true) [⟨"p", "p", none, false, 1⟩] = [])
    ∧ (filtered_projects ⟨none, none, true, none, none, none, none, false, none, none⟩
        (fun _ _ => true) [⟨"p", "p", none, false, 1⟩] = [] →
        primer_checks_run ⟨none, none, true, none, none, none, none, false, none, none⟩
          (fun _ _ => true) [⟨"p", "p", none, false, 1⟩]
          (fun _ => ⟨true, false⟩) = []) :=
  selection_empty_aborts _ _ _ _ (by decide)

/-- C9: partitioning projects with costs 5, 3 and 2 into two shards yields
the shard [cost 5] with total 5 and the shard [cost 3, cost 2] with total
5, and with one shard every project list lands in a single shard whose
total cost is the sum of all costs. -/
theorem shard_concrete_scenarios :
    shardProjects 2
        [⟨"a", "a", none, true, 5⟩, ⟨"b", "b", none, true, 3⟩,
          ⟨"c", "c", none, true, 2⟩] =
      [[⟨"a", "a", none, true, 5⟩],
        [⟨"b", "b", none, true, 3⟩, ⟨"c", "c", none, true, 2⟩]]
    ∧ (shardProjects 2
        [⟨"a", "a", none, true, 5⟩, ⟨"b", "b", none, true, 3⟩,
          ⟨"c", "c", none, true, 2⟩]).map (fun s => (s.map Project.cost).sum) =
      [5, 5]
    ∧ ∀ ps : List Project,
        (shardProjects 1 ps).map (fun s => (s.map Project.cost).sum) =
          [(ps.map Project.cost).sum] := by
  refine ⟨by decide, by decide, ?_⟩
  intro ps
  have h1 : shardProjects 1 ps = [sortProjects ps] := by
    unfold shardProjects
    have hrep : (List.replicate 1 (0 : Nat), List.replicate 1 ([] : List Project)) =
        ([0], [[]]) := rfl
    rw [hrep, foldl_shardStep_single]
    simp
  rw [h1]
  have hsum := ((sortProjects_perm ps).map Project.cost).sum_eq
  simp [hsum]

/-- C10: a supplied local project short-circuits select_projects: the result
is exactly that one project for every corpus and every other argument, so
the selector, the expected-success filter, the date override and sharding
are all ignored and the empty-selection error cannot occur. -/
theorem local_project_short_circuit (ARGS : Args)
    (search : String → String → Bool) (corpus : List Project) (loc : String)
    (h1 : ARGS.local_project = some loc) (h2 : loc ≠ "") :
    select_projects ARGS search corpus = Except.ok [Project.from_location loc] := by
  unfold select_projects
  rw [if_pos (by simp [strTruthy, h1, h2])]
  simp [h1]

/-- Witness for C10: the local project wins although a selector, the
expected-success filter, a date override and sharding are all supplied. -/
theorem local_project_short_circuit_witness :
    select_projects
        ⟨some "proj", some "sel", true, some "2022-01-01", some 2, some 0, none,
          false, none, none⟩
        (fun _ _ => true) [⟨"q", "q", none, false, 3⟩] =
      Except.ok [Project.from_location "proj"] :=
  local_project_short_circuit _ _ _ "proj" rfl (by decide)

end MypyPrimer
